import Mathlib

/-
Verification of the hierarchical composition engine and cross-reference
validator of src/validators/python/openapia_validator.py (class
OpenAPIAValidator).  Python dictionaries parsed from YAML/JSON documents are
modelled by the tagged type Value; the mutable validator instance (fields
errors, warnings, inherited_specs, merge_cache) is modelled by the record
VState threaded through each operation; a raised Python exception is modelled
by the error branch of Except, carrying the exception message together with
the state at the moment of the raise.  The file system is modelled as a
function from paths to optionally loadable documents.
-/

/-- Python scalar values occurring in loaded documents. -/
inductive Scalar where
  | str : String → Scalar
  | int : Int → Scalar
  | bool : Bool → Scalar
  | null : Scalar
deriving DecidableEq

/-- Structured document values: scalar, list, or string-keyed dictionary.
Dictionaries are association lists in insertion order, matching Python dict
iteration order; documents produced by the YAML/JSON loaders have unique keys
at every level. -/
inductive Value where
  | scalar : Scalar → Value
  | seq : List Value → Value
  | map : List (String × Value) → Value

/-- A loaded specification document, as Python type Dict[str, Any]. -/
abbrev Doc := List (String × Value)

/-- First-occurrence key lookup in a string-keyed association list, as Python
dict indexing and the `in` containment test; also used for the two caches. -/
def lookupKey {α : Type} : List (String × α) → String → Option α
  | [], _ => none
  | (k, v) :: rest, key => if k = key then some v else lookupKey rest key

/-- Python dict assignment, result[key] = v: replaces the value in place when
the key is present, appends a new last entry otherwise. -/
def setKey : Doc → String → Value → Doc
  | [], key, v => [(key, v)]
  | (k, w) :: rest, key, v =>
    if k = key then (key, v) :: rest else (k, w) :: setKey rest key v

/-- A single-quote character, built by code point to appear in strings. -/
def sglq : String := String.singleton (Char.ofNat 39)

mutual
/-- Python repr of a value: strings are quoted, containers are rendered
recursively, as in CPython (only scalar cases are exercised by the claims). -/
def pyRepr : Value → String
  | Value.scalar (Scalar.str s) => sglq ++ s ++ sglq
  | Value.scalar (Scalar.int i) => toString i
  | Value.scalar (Scalar.bool b) => if b then "True" else "False"
  | Value.scalar Scalar.null => "None"
  | Value.seq l => "[" ++ pyReprList l ++ "]"
  | Value.map m => "\x7b" ++ pyReprMap m ++ "\x7d"

/-- Comma-separated reprs of list elements. -/
def pyReprList : List Value → String
  | [] => ""
  | [v] => pyRepr v
  | v :: rest => pyRepr v ++ ", " ++ pyReprList rest

/-- Comma-separated key: value reprs of dict entries. -/
def pyReprMap : List (String × Value) → String
  | [] => ""
  | [(k, v)] => sglq ++ k ++ sglq ++ ": " ++ pyRepr v
  | (k, v) :: rest => sglq ++ k ++ sglq ++ ": " ++ pyRepr v ++ ", " ++ pyReprMap rest
end

/-- Python str of a value, as used by f-string interpolation in the error
messages: a string interpolates as itself, every other value as its repr. -/
def pyStr : Value → String
  | Value.scalar (Scalar.str s) => s
  | v => pyRepr v

mutual
/-- deep_merge (lines 510-520): result starts as a copy of base; for each
key/value pair of override in order, the slot is overwritten with the value
computed by mergeAtKey from the current result value at that key. -/
def deep_merge : Doc → Doc → Doc
  | base, [] => base
  | base, (k, v) :: rest =>
    deep_merge (setKey base k (mergeAtKey (lookupKey base k) v)) rest
  termination_by _ l => sizeOf l

/-- The conditional of deep_merge lines 515-518: when both the present result
value and the override value are dicts they are merged recursively, otherwise
the override value replaces the result value. -/
def mergeAtKey : Option Value → Value → Value
  | some (Value.map m1), Value.map m2 => Value.map (deep_merge m1 m2)
  | _, v => v
  termination_by _ v => sizeOf v
end

/-- Python equality of scalars: bool is a subtype of int in Python, so True
equals 1 and False equals 0; strings and None compare equal only to their own
kind. -/
def scalarPyEq : Scalar → Scalar → Bool
  | Scalar.str a, Scalar.str b => a = b
  | Scalar.int a, Scalar.int b => a = b
  | Scalar.bool a, Scalar.bool b => a = b
  | Scalar.int a, Scalar.bool b => a = (if b then (1 : Int) else 0)
  | Scalar.bool a, Scalar.int b => (if a then (1 : Int) else 0) = b
  | Scalar.null, Scalar.null => true
  | _, _ => false

mutual
/-- Python equality of document values: scalars compare by Python scalar
equality (bool and int interchangeable), lists pointwise, dicts by equal key
sets with equal values, order-insensitively (documents have unique keys, so
equal size plus pointwise containment of the left dict in the right one is
dict equality). -/
def pyEq : Value → Value → Bool
  | Value.scalar a, Value.scalar b => scalarPyEq a b
  | Value.seq a, Value.seq b => pyEqList a b
  | Value.map a, Value.map b => a.length = b.length && pyEqMapSub a b
  | _, _ => false

/-- Pointwise Python equality of lists. -/
def pyEqList : List Value → List Value → Bool
  | [], [] => true
  | x :: xs, y :: ys => pyEq x y && pyEqList xs ys
  | _, _ => false

/-- Containment of the entries of the first dict in the second, by Python
equality of values. -/
def pyEqMapSub : List (String × Value) → List (String × Value) → Bool
  | [], _ => true
  | (k, v) :: rest, b =>
    (match lookupKey b k with
     | some w => pyEq v w
     | none => false) && pyEqMapSub rest b
end

/-- The mutable state of an OpenAPIAValidator instance: the diagnostic lists
and the two caches of the hierarchical composition engine (constructor,
lines 19-26). -/
structure VState where
  errors : List String
  warnings : List String
  inherited_specs : List (String × Doc)
  merge_cache : List (String × Doc)

/-- A freshly constructed validator: empty diagnostics and caches. -/
def initState : VState :=
  { errors := [], warnings := [], inherited_specs := [], merge_cache := [] }

/-- Appending one message to self.errors. -/
def addError (st : VState) (msg : String) : VState :=
  { st with errors := st.errors ++ [msg] }

/-- The file system, mapping a path to the document it parses to; a path that
cannot be opened maps to none (FileNotFoundError on open). -/
abbrev FS := String → Option Doc

/-- Message of the NameError raised by any use of the name os, which the
module never imports (the import list, lines 8-13, holds yaml, json, sys,
typing, pathlib and argparse only). -/
def nameErrorMsg : String := "name " ++ sglq ++ "os" ++ sglq ++ " is not defined"

/-- Message of the RecursionError raised by CPython when the call stack
exceeds the recursion limit; it models exhaustion of the fuel bound below. -/
def recursionErrorMsg : String := "maximum recursion depth exceeded"

/-- Python str.endswith, as a suffix test on the character sequence. -/
def endswith (s suffix : String) : Bool := suffix.data.isSuffixOf s.data

/-- load_spec (lines 461-483): opens the file (a missing file raises
FileNotFoundError, caught and recorded), then parses by extension; an
unrecognised extension is recorded as unsupported.  Parse failures of an
existing file are not distinguished from absence by this model. -/
def load_spec (fs : FS) (spec_path : String) (st : VState) : Option Doc × VState :=
  match fs spec_path with
  | none => (none, addError st ("File not found: " ++ spec_path))
  | some d =>
    if endswith spec_path ".yaml" || endswith spec_path ".yml" || endswith spec_path ".json" then
      (some d, st)
    else
      (none, addError st ("Unsupported file format: " ++ spec_path))

/-- resolve_inheritance_path (lines 485-488): its body is
os.path.dirname followed by os.path.join, but the module never imports os,
so the very first expression of every call raises
NameError: name os is not defined.  The embedding therefore returns that
exception unconditionally; no path value is ever produced. -/
def resolve_inheritance_path (_inherit_path : Value) (_current_spec_path : String) :
    Except String String :=
  Except.error nameErrorMsg

mutual
/-- load_inherited_specs (lines 490-508): when the inherits field is present
and is a list, each declared ancestor is resolved, loaded through the
inherited_specs cache and recursed into; otherwise the call returns at once.
The fuel argument models the CPython recursion limit. -/
def load_inherited_specs : Nat → FS → Doc → String → VState → Except (String × VState) VState
  | 0, _, _, _, st => Except.error (recursionErrorMsg, st)
  | fuel + 1, fs, spec, spec_path, st =>
    match lookupKey spec "inherits" with
    | some (Value.seq paths) => load_list fuel fs paths spec_path st
    | _ => Except.ok st

/-- The loop body of load_inherited_specs (lines 495-508): resolve the
ancestor path (which raises NameError, line 487), skip it when cached, load
and recurse otherwise, recording an error diagnostic when the load fails. -/
def load_list : Nat → FS → List Value → String → VState → Except (String × VState) VState
  | 0, _, _, _, st => Except.error (recursionErrorMsg, st)
  | _ + 1, _, [], _, st => Except.ok st
  | fuel + 1, fs, p :: rest, spec_path, st =>
    match resolve_inheritance_path p spec_path with
    | Except.error e => Except.error (e, st)
    | Except.ok resolved =>
      if (lookupKey st.inherited_specs resolved).isSome then
        load_list fuel fs rest spec_path st
      else
        match load_spec fs resolved st with
        | (some ispec, st1) =>
          match load_inherited_specs fuel fs ispec resolved
              { st1 with inherited_specs := st1.inherited_specs ++ [(resolved, ispec)] } with
          | Except.error es => Except.error es
          | Except.ok st2 => load_list fuel fs rest spec_path st2
        | (none, st1) =>
          load_list fuel fs rest spec_path
            (addError st1 ("Inherited specification not found: " ++ pyStr p))

/-- merge_inherited_specifications (lines 522-545): return the cached result
when present; otherwise load the ancestors, fold them over the declared list
in reverse order on top of a copy of the document itself, and cache the
result under the document path before returning it. -/
def merge_inherited_specifications :
    Nat → FS → Doc → String → VState → Except (String × VState) (Doc × VState)
  | 0, _, _, _, st => Except.error (recursionErrorMsg, st)
  | fuel + 1, fs, spec, spec_path, st =>
    match lookupKey st.merge_cache spec_path with
    | some cached => Except.ok (cached, st)
    | none =>
      match load_inherited_specs fuel fs spec spec_path st with
      | Except.error es => Except.error es
      | Except.ok st1 =>
        match lookupKey spec "inherits" with
        | some (Value.seq paths) =>
          match merge_loop fuel fs paths.reverse spec_path spec st1 with
          | Except.error es => Except.error es
          | Except.ok (merged, st2) =>
            Except.ok (merged, { st2 with merge_cache := st2.merge_cache ++ [(spec_path, merged)] })
        | _ =>
          Except.ok (spec, { st1 with merge_cache := st1.merge_cache ++ [(spec_path, spec)] })

/-- The loop of merge_inherited_specifications lines 534-541, already applied
to the reversed inherits list: each resolvable ancestor found in the
inherited_specs cache is itself composed recursively and deep-merged below
the accumulated document. -/
def merge_loop : Nat → FS → List Value → String → Doc → VState → Except (String × VState) (Doc × VState)
  | 0, _, _, _, _, st => Except.error (recursionErrorMsg, st)
  | _ + 1, _, [], _, merged, st => Except.ok (merged, st)
  | fuel + 1, fs, p :: rest, spec_path, merged, st =>
    match resolve_inheritance_path p spec_path with
    | Except.error e => Except.error (e, st)
    | Except.ok resolved =>
      match lookupKey st.inherited_specs resolved with
      | some ispec =>
        match merge_inherited_specifications fuel fs ispec resolved st with
        | Except.error es => Except.error es
        | Except.ok (im, st1) => merge_loop fuel fs rest spec_path (deep_merge im merged) st1
      | none => merge_loop fuel fs rest spec_path merged st
end

/-- validate_with_inheritance (lines 444-459): load the root document (a
failed load returns False at once), compose it with its ancestors, then run
the full per-section validation on the merged result.  Any exception escaping
composition is caught and recorded as an Unexpected-error diagnostic, and the
call returns False.  The per-section validation validate_spec (lines 55-91)
is abstracted as the functional parameter validateSpec; every theorem below
about this function holds for each of its instantiations, because the
executions they describe never reach the call. -/
def validate_with_inheritance (validateSpec : Doc → VState → Bool × VState)
    (fuel : Nat) (fs : FS) (file_path : String) (st : VState) : Bool × VState :=
  match load_spec fs file_path st with
  | (none, st1) => (false, st1)
  | (some spec, st1) =>
    match merge_inherited_specifications fuel fs spec file_path st1 with
    | Except.error (e, st2) =>
      (false, addError st2 ("Unexpected error during hierarchical validation: " ++ e))
    | Except.ok (merged, st2) => validateSpec merged st2

/-- Python type name of a value, as it appears in exception messages. -/
def pyTypeName : Value → String
  | Value.scalar (Scalar.str _) => "str"
  | Value.scalar (Scalar.int _) => "int"
  | Value.scalar (Scalar.bool _) => "bool"
  | Value.scalar Scalar.null => "NoneType"
  | Value.seq _ => "list"
  | Value.map _ => "dict"

/-- Hashability of a value: lists and dicts are unhashable in Python, every
scalar is hashable. -/
def hashable : Value → Bool
  | Value.seq _ => false
  | Value.map _ => false
  | _ => true

/-- Substring scan over character lists: the needle occurs at some position
of the haystack. -/
def pyInChars (needle : List Char) : List Char → Bool
  | [] => needle.isEmpty
  | c :: rest => needle.isPrefixOf (c :: rest) || pyInChars needle rest

/-- Python substring containment, needle in s for two strings. -/
def pyInStr (needle s : String) : Bool := pyInChars needle.data s.data

/-- Message of the TypeError raised by the containment test key in v when v
supports no containment. -/
def notIterableMsg (v : Value) : String :=
  "argument of type " ++ sglq ++ pyTypeName v ++ sglq ++ " is not iterable"

/-- Message of the TypeError raised by iterating a non-iterable value. -/
def objNotIterableMsg (v : Value) : String :=
  sglq ++ pyTypeName v ++ sglq ++ " object is not iterable"

/-- Message of the AttributeError raised by calling .get on a non-dict. -/
def noGetAttrMsg (v : Value) : String :=
  sglq ++ pyTypeName v ++ sglq ++ " object has no attribute " ++ sglq ++ "get" ++ sglq

/-- Message of the TypeError raised by hashing an unhashable value. -/
def unhashableMsg (v : Value) : String :=
  "unhashable type: " ++ sglq ++ pyTypeName v ++ sglq

/-- Message of the TypeError raised by indexing a string with a string key. -/
def strIndexMsg : String :=
  "string indices must be integers, not " ++ sglq ++ "str" ++ sglq

/-- Message of the TypeError raised by indexing a list with a string key. -/
def listIndexMsg : String :=
  "list indices must be integers or slices, not str"

/-- The id-set comprehension of lines 379, 389 and 399, element by element in
order: a dict element contributes its id value when it carries one (the value
must be hashable to enter the set, else TypeError); a string element raises
AttributeError at .get when it contains the substring id and is filtered out
otherwise; a list element likewise by element containment; any other element
makes the containment test id-in-element itself raise TypeError.  A raised
exception is the error branch, carrying its message. -/
def declaredIds : List Value → Except String (List Value)
  | [] => Except.ok []
  | m :: rest =>
    match m with
    | Value.map mm =>
      match lookupKey mm "id" with
      | some i =>
        if hashable i then
          match declaredIds rest with
          | Except.error e => Except.error e
          | Except.ok ids => Except.ok (i :: ids)
        else Except.error (unhashableMsg i)
      | none => declaredIds rest
    | Value.scalar (Scalar.str s) =>
      if pyInStr "id" s then Except.error (noGetAttrMsg m) else declaredIds rest
    | Value.seq l =>
      if l.any (fun x => pyEq x (Value.scalar (Scalar.str "id"))) then
        Except.error (noGetAttrMsg m)
      else declaredIds rest
    | _ => Except.error (notIterableMsg m)

/-- Iteration of a referenceable section value by the id comprehension: a
list iterates its elements, a dict its keys (as strings), a string its
characters (as one-character strings); any other value raises TypeError at
the for clause. -/
def sectionIds : Value → Except String (List Value)
  | Value.seq l => declaredIds l
  | Value.map mm => declaredIds (mm.map fun kv => Value.scalar (Scalar.str kv.fst))
  | Value.scalar (Scalar.str s) =>
      declaredIds (s.data.map fun c => Value.scalar (Scalar.str (String.singleton c)))
  | v => Except.error (objNotIterableMsg v)

/-- The id list the comprehension produces on a list whose elements are all
dicts: the id value of each element carrying one, in order.  Used to state
what declaredIds returns on the crash-free inputs. -/
def collectIds (xs : List Value) : List Value :=
  xs.filterMap fun m =>
    match m with
    | Value.map mm => lookupKey mm "id"
    | _ => none

/-- The step loop shared by the three reference checks (lines 381-385,
391-395 and 401-405), parameterised by the id set, the step key and the
message prose.  A dict step carrying the key contributes one message when its
reference is missing from the id set (set membership is by Python equality;
an unhashable reference raises TypeError at the membership test); a string or
list step raises TypeError at the step indexing when it contains the key (as
substring or element) and is skipped otherwise; any other step makes the
containment test key-in-step raise TypeError.  The error branch carries the
exception message and the messages recorded before the raise, because the
Python loop appends to self.errors as it goes. -/
def stepRefErrors (ids : List Value) (refKey msgPre : String) :
    List Value → Except (String × List String) (List String)
  | [] => Except.ok []
  | s :: rest =>
    match s with
    | Value.map sm =>
      match lookupKey sm refKey with
      | some r =>
        if hashable r then
          if ids.any (fun i => pyEq i r) then stepRefErrors ids refKey msgPre rest
          else
            match stepRefErrors ids refKey msgPre rest with
            | Except.error (e, msgs) => Except.error (e, (msgPre ++ pyStr r) :: msgs)
            | Except.ok msgs => Except.ok ((msgPre ++ pyStr r) :: msgs)
        else Except.error (unhashableMsg r, [])
      | none => stepRefErrors ids refKey msgPre rest
    | Value.scalar (Scalar.str st1) =>
      if pyInStr refKey st1 then Except.error (strIndexMsg, [])
      else stepRefErrors ids refKey msgPre rest
    | Value.seq l =>
      if l.any (fun x => pyEq x (Value.scalar (Scalar.str refKey))) then
        Except.error (listIndexMsg, [])
      else stepRefErrors ids refKey msgPre rest
    | _ => Except.error (notIterableMsg s, [])

/-- Iteration of a steps value by the step loop: list elements, dict keys or
string characters; any other value raises TypeError at the for clause. -/
def stepIter (ids : List Value) (refKey msgPre : String) :
    Value → Except (String × List String) (List String)
  | Value.seq steps => stepRefErrors ids refKey msgPre steps
  | Value.map mm =>
      stepRefErrors ids refKey msgPre (mm.map fun kv => Value.scalar (Scalar.str kv.fst))
  | Value.scalar (Scalar.str s) =>
      stepRefErrors ids refKey msgPre (s.data.map fun c => Value.scalar (Scalar.str (String.singleton c)))
  | v => Except.error (objNotIterableMsg v, [])

/-- The task loop shared by the three reference checks: a dict task carrying
a steps key iterates that value with the step loop; a string or list task
raises TypeError at the task indexing when it contains steps (as substring or
element) and is skipped otherwise; any other task makes the containment test
steps-in-task raise TypeError.  Messages accumulate in task order and an
exception keeps the messages recorded before it. -/
def taskRefErrors (ids : List Value) (refKey msgPre : String) :
    List Value → Except (String × List String) (List String)
  | [] => Except.ok []
  | t :: rest =>
    match t with
    | Value.map tm =>
      match lookupKey tm "steps" with
      | some sv =>
        match stepIter ids refKey msgPre sv with
        | Except.error es => Except.error es
        | Except.ok msgs1 =>
          match taskRefErrors ids refKey msgPre rest with
          | Except.error (e, msgs2) => Except.error (e, msgs1 ++ msgs2)
          | Except.ok msgs2 => Except.ok (msgs1 ++ msgs2)
      | none => taskRefErrors ids refKey msgPre rest
    | Value.scalar (Scalar.str s) =>
      if pyInStr "steps" s then Except.error (strIndexMsg, [])
      else taskRefErrors ids refKey msgPre rest
    | Value.seq l =>
      if l.any (fun x => pyEq x (Value.scalar (Scalar.str "steps"))) then
        Except.error (listIndexMsg, [])
      else taskRefErrors ids refKey msgPre rest
    | _ => Except.error (notIterableMsg t, [])

/-- Iteration of a tasks section value by the task loop: list elements, dict
keys or string characters; any other value raises TypeError at the for
clause. -/
def taskIter (ids : List Value) (refKey msgPre : String) :
    Value → Except (String × List String) (List String)
  | Value.seq tasks => taskRefErrors ids refKey msgPre tasks
  | Value.map mm =>
      taskRefErrors ids refKey msgPre (mm.map fun kv => Value.scalar (Scalar.str kv.fst))
  | Value.scalar (Scalar.str s) =>
      taskRefErrors ids refKey msgPre (s.data.map fun c => Value.scalar (Scalar.str (String.singleton c)))
  | v => Except.error (objNotIterableMsg v, [])

/-- The model block of cross-validation (lines 377-385): when the document
has both a tasks and a models key, the model-id set is built first and every
task is then scanned; either phase raises exactly where CPython does on
ill-shaped elements. -/
def modelRefErrors (spec : Doc) : Except (String × List String) (List String) :=
  match lookupKey spec "tasks", lookupKey spec "models" with
  | some tasksV, some modelsV =>
    match sectionIds modelsV with
    | Except.error e => Except.error (e, [])
    | Except.ok ids => taskIter ids "model" "Task references unknown model: " tasksV
  | _, _ => Except.ok []

/-- The prompt block of cross-validation (lines 387-395), identical to the
model block with the prompts section and the prompt step key. -/
def promptRefErrors (spec : Doc) : Except (String × List String) (List String) :=
  match lookupKey spec "tasks", lookupKey spec "prompts" with
  | some tasksV, some promptsV =>
    match sectionIds promptsV with
    | Except.error e => Except.error (e, [])
    | Except.ok ids => taskIter ids "prompt" "Task references unknown prompt: " tasksV
  | _, _ => Except.ok []

/-- The MCP-server block of cross-validation (lines 397-405): the guard also
tests mcp_servers in spec-context, whose semantics depends on the kind of the
context value (dict key test, string substring, list element, else
TypeError), and the id set comes from indexing the context with mcp_servers,
which raises TypeError on a string or list context that passed the guard. -/
def mcpRefErrors (spec : Doc) : Except (String × List String) (List String) :=
  match lookupKey spec "tasks", lookupKey spec "context" with
  | some tasksV, some ctxV =>
    match ctxV with
    | Value.map ctx =>
      match lookupKey ctx "mcp_servers" with
      | some serversV =>
        match sectionIds serversV with
        | Except.error e => Except.error (e, [])
        | Except.ok ids =>
          taskIter ids "mcp_server" "Task references unknown MCP server: " tasksV
      | none => Except.ok []
    | Value.scalar (Scalar.str s) =>
      if pyInStr "mcp_servers" s then Except.error (strIndexMsg, []) else Except.ok []
    | Value.seq l =>
      if l.any (fun x => pyEq x (Value.scalar (Scalar.str "mcp_servers"))) then
        Except.error (listIndexMsg, [])
      else Except.ok []
    | v => Except.error (notIterableMsg v, [])
  | _, _ => Except.ok []

/-- Method _cross_validate (lines 375-405): the three reference checks run in
sequence, each appending its messages to self.errors; no check stops at the
first violation, and an exception escaping a check leaves the messages
already appended in the state and propagates as the error branch. -/
def cross_validate (spec : Doc) (st : VState) : Except (String × VState) VState :=
  match modelRefErrors spec with
  | Except.error (e, msgs) => Except.error (e, { st with errors := st.errors ++ msgs })
  | Except.ok msgs1 =>
    let st1 : VState := { st with errors := st.errors ++ msgs1 }
    match promptRefErrors spec with
    | Except.error (e, msgs) => Except.error (e, { st1 with errors := st1.errors ++ msgs })
    | Except.ok msgs2 =>
      let st2 : VState := { st1 with errors := st1.errors ++ msgs2 }
      match mcpRefErrors spec with
      | Except.error (e, msgs) => Except.error (e, { st2 with errors := st2.errors ++ msgs })
      | Except.ok msgs3 => Except.ok { st2 with errors := st2.errors ++ msgs3 }

/-- The key-wise description of deep merge from the specification: at a key
absent from override the base value (possibly absent) passes through; when
both sides hold dicts the result holds their recursive merge; in every other
combination the override value fully replaces the base value. -/
def deepMergeKeySpec : Option Value → Option Value → Option Value
  | b, none => b
  | some (Value.map m1), some (Value.map m2) => some (Value.map (deep_merge m1 m2))
  | _, some v => some v

theorem deepMergeKeySpec_none (b : Option Value) : deepMergeKeySpec b none = b := by
  cases b with
  | none => simp [deepMergeKeySpec]
  | some bv => cases bv <;> simp [deepMergeKeySpec]

theorem mergeAtKey_none (v : Value) : mergeAtKey none v = v := by
  cases v <;> simp [mergeAtKey]

theorem deepMergeKeySpec_some (b : Option Value) (v : Value) :
    deepMergeKeySpec b (some v) = some (mergeAtKey b v) := by
  cases b with
  | none => cases v <;> simp [deepMergeKeySpec, mergeAtKey]
  | some bv => cases bv <;> cases v <;> simp [deepMergeKeySpec, mergeAtKey]

theorem lookupKey_setKey_self (l : Doc) (k : String) (v : Value) :
    lookupKey (setKey l k v) k = some v := by
  induction l with
  | nil => simp [setKey, lookupKey]
  | cons hd tl ih =>
    obtain ⟨a, b⟩ := hd
    by_cases h : a = k
    · simp [setKey, h, lookupKey]
    · simp [setKey, h, lookupKey, ih]

theorem lookupKey_setKey_ne (l : Doc) (k : String) (v : Value) (key : String)
    (h : k ≠ key) : lookupKey (setKey l k v) key = lookupKey l key := by
  induction l with
  | nil => simp [setKey, lookupKey, h]
  | cons hd tl ih =>
    obtain ⟨a, b⟩ := hd
    by_cases hak : a = k
    · subst hak
      simp [setKey, lookupKey, h]
    · simp only [setKey, if_neg hak, lookupKey]
      by_cases hk2 : a = key
      · simp [hk2]
      · simp [hk2, ih]

theorem lookupKey_eq_none_iff {α : Type} (l : List (String × α)) (key : String) :
    lookupKey l key = none ↔ key ∉ l.map Prod.fst := by
  induction l with
  | nil => simp [lookupKey]
  | cons hd tl ih =>
    obtain ⟨a, b⟩ := hd
    by_cases h : a = key
    · simp [lookupKey, h]
    · have h2 : ¬(key = a) := fun hh => h hh.symm
      simp [lookupKey, h, h2, ih]

theorem lookupKey_append {α : Type} (l1 l2 : List (String × α)) (key : String) :
    lookupKey (l1 ++ l2) key =
      match lookupKey l1 key with
      | some v => some v
      | none => lookupKey l2 key := by
  induction l1 with
  | nil => simp [lookupKey]
  | cons hd tl ih =>
    obtain ⟨a, b⟩ := hd
    by_cases h : a = key
    · simp [lookupKey, h]
    · simp [lookupKey, h, ih]

theorem setKey_eq_append (l : Doc) (k : String) (v : Value)
    (h : lookupKey l k = none) : setKey l k v = l ++ [(k, v)] := by
  induction l with
  | nil => simp [setKey]
  | cons hd tl ih =>
    obtain ⟨a, b⟩ := hd
    by_cases hak : a = k
    · subst hak
      simp [lookupKey] at h
    · simp only [lookupKey, if_neg hak] at h
      simp [setKey, hak, ih h]

/-- Key-wise characterisation of deep_merge: the value of the merged document
at each key is described by deepMergeKeySpec applied to the two input values
at that key.  The override document is assumed to have unique keys, as every
Python dict does. -/
theorem deep_merge_lookupKey (base ov : Doc) (hnd : (ov.map Prod.fst).Nodup) (key : String) :
    lookupKey (deep_merge base ov) key =
      deepMergeKeySpec (lookupKey base key) (lookupKey ov key) := by
  induction ov generalizing base with
  | nil => simp [deep_merge, lookupKey, deepMergeKeySpec_none]
  | cons hd tl ih =>
    obtain ⟨j, w⟩ := hd
    simp only [List.map_cons, List.nodup_cons] at hnd
    obtain ⟨hj, htl⟩ := hnd
    have hstep : deep_merge base ((j, w) :: tl) =
        deep_merge (setKey base j (mergeAtKey (lookupKey base j) w)) tl := by
      simp [deep_merge]
    rw [hstep, ih _ htl]
    by_cases hk : j = key
    · subst hk
      have h1 : lookupKey tl j = none := (lookupKey_eq_none_iff tl j).mpr hj
      have h2 : lookupKey ((j, w) :: tl) j = some w := by simp [lookupKey]
      rw [h1, deepMergeKeySpec_none, lookupKey_setKey_self, h2, deepMergeKeySpec_some]
    · have h3 : lookupKey (setKey base j (mergeAtKey (lookupKey base j) w)) key =
          lookupKey base key := lookupKey_setKey_ne _ _ _ _ hk
      have h4 : lookupKey ((j, w) :: tl) key = lookupKey tl key := by simp [lookupKey, hk]
      rw [h3, h4]

/-- Merging a document whose keys are all absent from the base appends it. -/
theorem deep_merge_append_disjoint (ov : Doc) : ∀ base : Doc,
    (ov.map Prod.fst).Nodup →
    (∀ x ∈ ov.map Prod.fst, lookupKey base x = none) →
    deep_merge base ov = base ++ ov := by
  induction ov with
  | nil => intro base _ _; simp [deep_merge]
  | cons hd tl ih =>
    obtain ⟨j, w⟩ := hd
    intro base hnd hdisj
    simp only [List.map_cons, List.nodup_cons] at hnd
    obtain ⟨hj, htl⟩ := hnd
    have hbj : lookupKey base j = none := hdisj j (by simp)
    have hstep : deep_merge base ((j, w) :: tl) =
        deep_merge (setKey base j (mergeAtKey (lookupKey base j) w)) tl := by
      simp [deep_merge]
    rw [hstep, hbj, mergeAtKey_none, setKey_eq_append base j w hbj]
    rw [ih (base ++ [(j, w)]) htl ?_]
    · simp
    · intro x hx
      rw [lookupKey_append]
      have hxj : x ≠ j := fun h => hj (h ▸ hx)
      have hjx : ¬(j = x) := fun hh => hxj hh.symm
      rw [hdisj x (by simp [hx])]
      simp [lookupKey, hjx]

/-- Documents of the associativity counterexample: cexA holds a dict at key
k, cexB a scalar, cexC an empty dict. -/
def cexA : Doc := [("k", Value.map [("x", Value.scalar (Scalar.int 1))])]

/-- Middle document of the associativity counterexample. -/
def cexB : Doc := [("k", Value.scalar (Scalar.int 0))]

/-- Right document of the associativity counterexample. -/
def cexC : Doc := [("k", Value.map [])]

/-- C3 counterexample: deep_merge is not associative.  With A, B, C holding
at key k a dict, a scalar and an empty dict respectively,
merge(merge(A, B), C) keeps the empty dict of C, while merge(A, merge(B, C))
merges the dict of A into the dict of C, so the two sides differ even under
Python equality of documents. -/
theorem deep_merge_assoc_counterexample :
    pyEq (Value.map (deep_merge (deep_merge cexA cexB) cexC))
         (Value.map (deep_merge cexA (deep_merge cexB cexC))) = false := by
  simp [cexA, cexB, cexC, deep_merge, mergeAtKey, setKey, lookupKey, pyEq, scalarPyEq, pyEqMapSub]

/-- C3 amended: deep_merge is not associative (first conjunct, the
counterexample instance), it is not commutative (second conjunct), and on a
key present in both arguments whose two values are not both dicts the
override value wins (third conjunct). -/
theorem deep_merge_algebra_amended :
    pyEq (Value.map (deep_merge (deep_merge cexA cexB) cexC))
         (Value.map (deep_merge cexA (deep_merge cexB cexC))) = false
  ∧ pyEq (Value.map (deep_merge cexA cexB)) (Value.map (deep_merge cexB cexA)) = false
  ∧ ∀ (base ov : Doc) (key : String) (bv v : Value),
      (ov.map Prod.fst).Nodup →
      lookupKey base key = some bv →
      lookupKey ov key = some v →
      (∀ m1 m2, ¬(bv = Value.map m1 ∧ v = Value.map m2)) →
      lookupKey (deep_merge base ov) key = some v := by
  refine ⟨?_, ?_, ?_⟩
  · simp [cexA, cexB, cexC, deep_merge, mergeAtKey, setKey, lookupKey, pyEq, scalarPyEq, pyEqMapSub]
  · simp [cexA, cexB, deep_merge, mergeAtKey, setKey, lookupKey, pyEq, scalarPyEq, pyEqMapSub]
  · intro base ov key bv v hnd hb ho hnm
    rw [deep_merge_lookupKey base ov hnd key, hb, ho]
    cases bv with
    | map m1 =>
      cases v with
      | map m2 => exact absurd ⟨rfl, rfl⟩ (hnm m1 m2)
      | scalar s => simp [deepMergeKeySpec]
      | seq l => simp [deepMergeKeySpec]
    | scalar s => cases v <;> simp [deepMergeKeySpec]
    | seq l => cases v <;> simp [deepMergeKeySpec]

/-- Witness for the amended C3 theorem: at the shared key k of cexA and cexB
the scalar override of cexB wins over the dict of cexA. -/
theorem deep_merge_algebra_amended_witness :
    lookupKey (deep_merge cexA cexB) "k" = some (Value.scalar (Scalar.int 0)) :=
  deep_merge_algebra_amended.2.2 cexA cexB "k"
    (Value.map [("x", Value.scalar (Scalar.int 1))]) (Value.scalar (Scalar.int 0))
    (by decide) rfl rfl (fun m1 m2 h => Value.noConfusion h.2)

/-- C7: for every key of deep_merge base override, when both inputs hold
dicts at the key the result holds their recursive merge; when the key is
present only in override, or present in both with any other combination of
kinds (scalar or list on either side), the override value fully replaces the
base value, lists included; a key present only in base passes through. -/
theorem deep_merge_pointwise (base ov : Doc) (hnd : (ov.map Prod.fst).Nodup) (key : String) :
    lookupKey (deep_merge base ov) key =
      deepMergeKeySpec (lookupKey base key) (lookupKey ov key) :=
  deep_merge_lookupKey base ov hnd key

/-- Base document of the C7 witness. -/
def c7base : Doc :=
  [("shared", Value.map [("a", Value.scalar (Scalar.int 1))]),
   ("only", Value.scalar (Scalar.int 5))]

/-- Override document of the C7 witness. -/
def c7ov : Doc :=
  [("shared", Value.map [("b", Value.scalar (Scalar.int 2))]),
   ("s2", Value.scalar Scalar.null)]

/-- Witness for C7 at the shared dict-valued key of two concrete documents. -/
theorem deep_merge_pointwise_witness :
    lookupKey (deep_merge c7base c7ov) "shared" =
      deepMergeKeySpec (lookupKey c7base "shared") (lookupKey c7ov "shared") :=
  deep_merge_pointwise c7base c7ov (by decide) "shared"

/-- C10: the empty dict is a two-sided identity of deep_merge, for every
document with unique keys (as all Python dicts have). -/
theorem deep_merge_empty_identity (A : Doc) (h : (A.map Prod.fst).Nodup) :
    deep_merge A [] = A ∧ deep_merge [] A = A := by
  constructor
  · simp [deep_merge]
  · have hres := deep_merge_append_disjoint A [] h (fun x _ => rfl)
    simpa using hres

/-- Concrete document of the C10 witness. -/
def c10doc : Doc :=
  [("openapia", Value.scalar (Scalar.str "0.1")),
   ("info", Value.map [("title", Value.scalar (Scalar.str "t"))])]

/-- Witness for C10 on a concrete two-key document. -/
theorem deep_merge_empty_identity_witness :
    deep_merge c10doc [] = c10doc ∧ deep_merge [] c10doc = c10doc :=
  deep_merge_empty_identity c10doc (by decide)

/-- C1: for every loadable document whose inherits field is a non-empty list
of path strings, validate_with_inheritance returns False and appends the
Unexpected-error diagnostic carrying the NameError message of the unimported
name os, raised by resolve_inheritance_path before any ancestor is loaded.
The conclusion holds for every instantiation of the abstracted per-section
validation and for every recursion budget of at least three frames. -/
theorem validate_with_inheritance_raises_nameError
    (validateSpec : Doc → VState → Bool × VState) (fuel : Nat) (fs : FS)
    (file_path : String) (spec : Doc) (st : VState) (p : Value) (ps : List Value)
    (hext : (endswith file_path ".yaml" || endswith file_path ".yml"
              || endswith file_path ".json") = true)
    (hfs : fs file_path = some spec)
    (hinh : lookupKey spec "inherits" = some (Value.seq (p :: ps)))
    (hstr : ∀ x ∈ p :: ps, ∃ s, x = Value.scalar (Scalar.str s))
    (hc : lookupKey st.merge_cache file_path = none) :
    validate_with_inheritance validateSpec (fuel + 3) fs file_path st =
      (false, addError st ("Unexpected error during hierarchical validation: " ++ nameErrorMsg)) := by
  simp [validate_with_inheritance, load_spec, hfs, hext, merge_inherited_specifications, hc,
        load_inherited_specs, hinh, load_list, resolve_inheritance_path]

/-- Root document of the C1 witness, declaring one string ancestor path. -/
def c1spec : Doc := [("inherits", Value.seq [Value.scalar (Scalar.str "missing.yaml")])]

/-- File system of the C1 witness, holding only the root document. -/
def c1fs : FS := fun p => if p = "spec.yaml" then some c1spec else none

/-- Witness for C1 on a concrete document with one declared ancestor. -/
theorem validate_with_inheritance_raises_nameError_witness :
    validate_with_inheritance (fun _ st => (true, st)) 3 c1fs "spec.yaml" initState =
      (false, addError initState
        ("Unexpected error during hierarchical validation: " ++ nameErrorMsg)) :=
  validate_with_inheritance_raises_nameError (fun _ st => (true, st)) 0 c1fs "spec.yaml"
    c1spec initState (Value.scalar (Scalar.str "missing.yaml")) []
    (by decide) rfl rfl
    (by
      intro x hx
      simp only [List.mem_singleton] at hx
      subst hx
      exact ⟨"missing.yaml", rfl⟩)
    rfl

/-- C4: on a document set with an inheritance cycle between X and Y, the
composition of X yields the same outcome for every recursion budget of at
least three frames; the computation therefore terminates, neither hanging nor
exhausting the stack.  It terminates because resolve_inheritance_path raises
NameError before either the resolver recursion or the unguarded merge
recursion of merge_inherited_specifications can start. -/
theorem merge_inherited_specifications_terminates_on_cycle
    (fuel : Nat) (fs : FS) (st : VState) (X Y : Doc) (pX pY : String)
    (hfsX : fs pX = some X) (hfsY : fs pY = some Y)
    (hXi : lookupKey X "inherits" = some (Value.seq [Value.scalar (Scalar.str pY)]))
    (hYi : lookupKey Y "inherits" = some (Value.seq [Value.scalar (Scalar.str pX)]))
    (hc : lookupKey st.merge_cache pX = none) :
    merge_inherited_specifications (fuel + 3) fs X pX st = Except.error (nameErrorMsg, st) := by
  simp [merge_inherited_specifications, hc, load_inherited_specs, hXi, load_list,
        resolve_inheritance_path]

/-- First document of the C4 witness cycle: x.yaml inherits y.yaml. -/
def c4X : Doc := [("inherits", Value.seq [Value.scalar (Scalar.str "y.yaml")])]

/-- Second document of the C4 witness cycle: y.yaml inherits x.yaml. -/
def c4Y : Doc := [("inherits", Value.seq [Value.scalar (Scalar.str "x.yaml")])]

/-- File system of the C4 witness, holding the two-document cycle. -/
def c4fs : FS := fun p => if p = "x.yaml" then some c4X else if p = "y.yaml" then some c4Y else none

/-- Witness for C4 on the concrete two-document cycle. -/
theorem merge_inherited_specifications_terminates_on_cycle_witness :
    merge_inherited_specifications 3 c4fs c4X "x.yaml" initState =
      Except.error (nameErrorMsg, initState) :=
  merge_inherited_specifications_terminates_on_cycle 0 c4fs initState c4X c4Y
    "x.yaml" "y.yaml" rfl rfl rfl rfl rfl

/-- Root document of the C2 scenario, declaring the single missing ancestor. -/
def c2spec : Doc := [("inherits", Value.seq [Value.scalar (Scalar.str "missing.yaml")])]

/-- File system of the C2 scenario: only the root document exists. -/
def c2fs : FS := fun p => if p = "spec.yaml" then some c2spec else none

/-- C2 evaluation at the failing input: on a root declaring the sole missing
ancestor missing.yaml, hierarchical validation returns False with exactly the
Unexpected-error NameError diagnostic; the diagnostic list does not contain
the expected message naming the missing path, because the NameError of the
unimported os is raised before the ancestor is ever looked up. -/
theorem missing_ancestor_eval :
    validate_with_inheritance (fun _ st => (true, st)) 3 c2fs "spec.yaml" initState =
      (false, addError initState
        ("Unexpected error during hierarchical validation: " ++ nameErrorMsg))
  ∧ "Inherited specification not found: missing.yaml" ∉
      (validate_with_inheritance (fun _ st => (true, st)) 3 c2fs "spec.yaml" initState).2.errors := by
  have hext : (endswith "spec.yaml" ".yaml" || endswith "spec.yaml" ".yml"
      || endswith "spec.yaml" ".json") = true := by decide
  have h : validate_with_inheritance (fun _ st => (true, st)) 3 c2fs "spec.yaml" initState =
      (false, addError initState
        ("Unexpected error during hierarchical validation: " ++ nameErrorMsg)) := by
    simp [validate_with_inheritance, load_spec, c2fs, c2spec, hext,
          merge_inherited_specifications, load_inherited_specs, load_list,
          resolve_inheritance_path, initState, lookupKey]
  refine ⟨h, ?_⟩
  rw [h]
  simp only [addError, initState, List.nil_append, List.mem_singleton]
  decide

/-- C5 evaluation: resolve_inheritance_path produces no canonical path for
any declared ancestor spelling; every call, whatever the relative spelling
and the declaring document location, raises the NameError of the unimported
name os (first conjunct shows one concrete call, second conjunct all). -/
theorem resolve_inheritance_path_eval :
    resolve_inheritance_path (Value.scalar (Scalar.str "common/base.yaml")) "specs/root.yaml" =
      Except.error nameErrorMsg
  ∧ ∀ (inherit_path : Value) (current_spec_path : String),
      resolve_inheritance_path inherit_path current_spec_path = Except.error nameErrorMsg :=
  ⟨rfl, fun _ _ => rfl⟩

/-- Root document of the C6 scenario, declaring two sibling ancestors that
both set key x. -/
def c6root : Doc :=
  [("inherits", Value.seq [Value.scalar (Scalar.str "p1.yaml"), Value.scalar (Scalar.str "p2.yaml")])]

/-- First sibling ancestor of the C6 scenario, setting x to a. -/
def c6p1 : Doc := [("x", Value.scalar (Scalar.str "a"))]

/-- Second sibling ancestor of the C6 scenario, setting x to b. -/
def c6p2 : Doc := [("x", Value.scalar (Scalar.str "b"))]

/-- File system of the C6 scenario. -/
def c6fs : FS :=
  fun p => if p = "root.yaml" then some c6root
    else if p = "p1.yaml" then some c6p1
    else if p = "p2.yaml" then some c6p2 else none

/-- C6 evaluation at the failing input: composing the document that declares
ancestors p1.yaml and p2.yaml, both of which set key x, does not produce a
composed document at all; it raises the NameError of the unimported os, so no
result with x bound to the value of the last-declared ancestor exists. -/
theorem sibling_precedence_eval :
    merge_inherited_specifications 9 c6fs c6root "root.yaml" initState =
      Except.error (nameErrorMsg, initState) := by
  simp [merge_inherited_specifications, load_inherited_specs, load_list,
        resolve_inheritance_path, c6root, initState, lookupKey]

/-- Root document of the C9 diamond, declaring ancestors A and B. -/
def c9root : Doc :=
  [("inherits", Value.seq [Value.scalar (Scalar.str "a.yaml"), Value.scalar (Scalar.str "b.yaml")])]

/-- Left ancestor of the C9 diamond, itself inheriting the common C. -/
def c9a : Doc := [("inherits", Value.seq [Value.scalar (Scalar.str "c.yaml")])]

/-- Right ancestor of the C9 diamond, itself inheriting the common C. -/
def c9b : Doc := [("inherits", Value.seq [Value.scalar (Scalar.str "c.yaml")])]

/-- Common ancestor of the C9 diamond, sole definer of key base. -/
def c9c : Doc := [("base", Value.scalar (Scalar.str "c-only"))]

/-- File system of the C9 diamond. -/
def c9fs : FS :=
  fun p => if p = "root.yaml" then some c9root
    else if p = "a.yaml" then some c9a
    else if p = "b.yaml" then some c9b
    else if p = "c.yaml" then some c9c else none

/-- C9 evaluation at the failing input: composing the root of the diamond
(root inherits A and B, both inherit C) does not produce a composed document
in which the contribution of C could appear at all; it raises the NameError
of the unimported os at the first ancestor resolution. -/
theorem diamond_eval :
    merge_inherited_specifications 9 c9fs c9root "root.yaml" initState =
      Except.error (nameErrorMsg, initState) := by
  simp [merge_inherited_specifications, load_inherited_specs, load_list,
        resolve_inheritance_path, c9root, initState, lookupKey]

/-- Every scalar is hashable. -/
theorem hashable_scalar (sc : Scalar) : hashable (Value.scalar sc) = true := rfl

/-- On a list whose elements are all dicts with hashable ids, the id
comprehension completes and produces exactly the collected id list. -/
theorem declaredIds_ok (xs : List Value)
    (hmaps : ∀ m ∈ xs, ∃ mm, m = Value.map mm)
    (hhash : ∀ mm, Value.map mm ∈ xs → ∀ i, lookupKey mm "id" = some i → hashable i = true) :
    declaredIds xs = Except.ok (collectIds xs) := by
  induction xs with
  | nil => simp [declaredIds, collectIds]
  | cons hd tl ih =>
    obtain ⟨mm, rfl⟩ := hmaps hd (List.mem_cons_self hd tl)
    have ihh := ih (fun m hm => hmaps m (List.mem_cons_of_mem _ hm))
      (fun mm2 hmm2 i hi => hhash mm2 (List.mem_cons_of_mem _ hmm2) i hi)
    cases hid : lookupKey mm "id" with
    | none => simp [declaredIds, hid, ihh, collectIds, List.filterMap_cons]
    | some i =>
      have hh : hashable i = true := hhash mm (List.mem_cons_self _ _) i hid
      simp [declaredIds, hid, hh, ihh, collectIds, List.filterMap_cons]

/-- On a step list whose elements are all dicts with hashable references at
the given key, the step loop completes, and every step whose reference misses
the id set has its message in the output. -/
theorem stepRefErrors_ok (ids : List Value) (refKey msgPre : String) (steps : List Value)
    (hmaps : ∀ s ∈ steps, ∃ sm, s = Value.map sm)
    (hhash : ∀ sm, Value.map sm ∈ steps → ∀ r, lookupKey sm refKey = some r → hashable r = true) :
    ∃ msgs, stepRefErrors ids refKey msgPre steps = Except.ok msgs ∧
      ∀ sm r, Value.map sm ∈ steps → lookupKey sm refKey = some r →
        ids.any (fun i => pyEq i r) = false → (msgPre ++ pyStr r) ∈ msgs := by
  induction steps with
  | nil =>
    refine ⟨[], by simp [stepRefErrors], ?_⟩
    intro sm r h
    simp at h
  | cons hd tl ih =>
    obtain ⟨sm0, rfl⟩ := hmaps hd (List.mem_cons_self hd tl)
    obtain ⟨msgs, hok, hmem⟩ := ih (fun s hs => hmaps s (List.mem_cons_of_mem _ hs))
      (fun sm2 h2 r hr => hhash sm2 (List.mem_cons_of_mem _ h2) r hr)
    cases hr0 : lookupKey sm0 refKey with
    | none =>
      refine ⟨msgs, by simp [stepRefErrors, hr0, hok], ?_⟩
      intro sm r hin hlk hany
      rcases List.mem_cons.mp hin with heq | hin2
      · injection heq with heq2
        subst heq2
        rw [hr0] at hlk
        exact Option.noConfusion hlk
      · exact hmem sm r hin2 hlk hany
    | some r0 =>
      have hh : hashable r0 = true := hhash sm0 (List.mem_cons_self _ _) r0 hr0
      cases hmem0 : ids.any (fun i => pyEq i r0) with
      | true =>
        refine ⟨msgs, by simp [stepRefErrors, hr0, hh, hmem0, hok], ?_⟩
        intro sm r hin hlk hany
        rcases List.mem_cons.mp hin with heq | hin2
        · injection heq with heq2
          subst heq2
          rw [hr0] at hlk
          injection hlk with hlk2
          subst hlk2
          rw [hmem0] at hany
          exact Bool.noConfusion hany
        · exact hmem sm r hin2 hlk hany
      | false =>
        refine ⟨(msgPre ++ pyStr r0) :: msgs, by simp [stepRefErrors, hr0, hh, hmem0, hok], ?_⟩
        intro sm r hin hlk hany
        rcases List.mem_cons.mp hin with heq | hin2
        · injection heq with heq2
          subst heq2
          rw [hr0] at hlk
          injection hlk with hlk2
          subst hlk2
          exact List.mem_cons_self _ _
        · exact List.mem_cons_of_mem _ (hmem sm r hin2 hlk hany)

/-- On a task list whose elements are all dicts and whose steps values are
lists of dicts with hashable references at the given key, the task loop
completes, and every violating step of every task has its message in the
output. -/
theorem taskRefErrors_ok (ids : List Value) (refKey msgPre : String) (tasks : List Value)
    (htm : ∀ t ∈ tasks, ∃ tm, t = Value.map tm)
    (hsteps : ∀ tm, Value.map tm ∈ tasks → ∀ sv, lookupKey tm "steps" = some sv →
      ∃ steps, sv = Value.seq steps ∧ (∀ s ∈ steps, ∃ sm, s = Value.map sm) ∧
        (∀ sm, Value.map sm ∈ steps → ∀ r, lookupKey sm refKey = some r → hashable r = true)) :
    ∃ msgs, taskRefErrors ids refKey msgPre tasks = Except.ok msgs ∧
      ∀ tm steps sm r, Value.map tm ∈ tasks →
        lookupKey tm "steps" = some (Value.seq steps) →
        Value.map sm ∈ steps → lookupKey sm refKey = some r →
        ids.any (fun i => pyEq i r) = false → (msgPre ++ pyStr r) ∈ msgs := by
  induction tasks with
  | nil =>
    refine ⟨[], by simp [taskRefErrors], ?_⟩
    intro tm steps sm r h
    simp at h
  | cons hd tl ih =>
    obtain ⟨tm0, rfl⟩ := htm hd (List.mem_cons_self hd tl)
    obtain ⟨msgs2, hok2, hmem2⟩ := ih (fun t ht => htm t (List.mem_cons_of_mem _ ht))
      (fun tm2 h2 sv hsv => hsteps tm2 (List.mem_cons_of_mem _ h2) sv hsv)
    cases hsv0 : lookupKey tm0 "steps" with
    | none =>
      refine ⟨msgs2, by simp [taskRefErrors, hsv0, hok2], ?_⟩
      intro tm steps sm r hin hlk hsm hr hany
      rcases List.mem_cons.mp hin with heq | hin2
      · injection heq with heq2
        subst heq2
        rw [hsv0] at hlk
        exact Option.noConfusion hlk
      · exact hmem2 tm steps sm r hin2 hlk hsm hr hany
    | some sv0 =>
      obtain ⟨steps0, rfl, hsmaps, hshash⟩ := hsteps tm0 (List.mem_cons_self _ _) sv0 hsv0
      obtain ⟨msgs1, hok1, hmem1⟩ := stepRefErrors_ok ids refKey msgPre steps0 hsmaps hshash
      refine ⟨msgs1 ++ msgs2, by simp [taskRefErrors, hsv0, stepIter, hok1, hok2], ?_⟩
      intro tm steps sm r hin hlk hsm hr hany
      rcases List.mem_cons.mp hin with heq | hin2
      · injection heq with heq2
        subst heq2
        rw [hsv0] at hlk
        injection hlk with hlk2
        injection hlk2 with hlk3
        subst hlk3
        exact List.mem_append.mpr (Or.inl (hmem1 sm r hsm hr hany))
      · exact List.mem_append.mpr (Or.inr (hmem2 tm steps sm r hin2 hlk hsm hr hany))

/-- C8: cross-validation checks every step of every task without stopping at
the first violation.  On a document whose tasks, models, prompts and
context.mcp_servers sections are lists of dicts, whose steps values are lists
of dicts and whose ids and references are scalars (the shapes on which the
CPython code runs without raising), the run completes, and for every task
step carrying a model reference missing from the declared model ids (by
Python equality, bool and int interchangeable) the unknown-model error is
recorded, with the identical guarantee for prompt references against prompt
ids and MCP-server references against server ids. -/
theorem cross_validate_reports_all_unknown_references
    (spec : Doc) (st : VState) (tasks models prompts : List Value) (ctx : Doc)
    (servers : List Value)
    (htasks : lookupKey spec "tasks" = some (Value.seq tasks))
    (hmodels : lookupKey spec "models" = some (Value.seq models))
    (hprompts : lookupKey spec "prompts" = some (Value.seq prompts))
    (hctx : lookupKey spec "context" = some (Value.map ctx))
    (hservers : lookupKey ctx "mcp_servers" = some (Value.seq servers))
    (hTasksShape : ∀ t ∈ tasks, ∃ tm, t = Value.map tm)
    (hStepsShape : ∀ tm, Value.map tm ∈ tasks → ∀ sv, lookupKey tm "steps" = some sv →
      ∃ steps, sv = Value.seq steps ∧ ∀ s ∈ steps, ∃ sm, s = Value.map sm)
    (hRefsScalar : ∀ tm, Value.map tm ∈ tasks → ∀ steps,
      lookupKey tm "steps" = some (Value.seq steps) → ∀ sm, Value.map sm ∈ steps →
      ∀ key ∈ (["model", "prompt", "mcp_server"] : List String), ∀ r,
      lookupKey sm key = some r → ∃ sc, r = Value.scalar sc)
    (hModelsShape : ∀ m ∈ models, ∃ mm, m = Value.map mm)
    (hModelsIds : ∀ mm, Value.map mm ∈ models → ∀ i, lookupKey mm "id" = some i →
      ∃ sc, i = Value.scalar sc)
    (hPromptsShape : ∀ m ∈ prompts, ∃ mm, m = Value.map mm)
    (hPromptsIds : ∀ mm, Value.map mm ∈ prompts → ∀ i, lookupKey mm "id" = some i →
      ∃ sc, i = Value.scalar sc)
    (hServersShape : ∀ m ∈ servers, ∃ mm, m = Value.map mm)
    (hServersIds : ∀ mm, Value.map mm ∈ servers → ∀ i, lookupKey mm "id" = some i →
      ∃ sc, i = Value.scalar sc) :
    ∃ st', cross_validate spec st = Except.ok st'
      ∧ (∀ tm steps sm r, Value.map tm ∈ tasks →
          lookupKey tm "steps" = some (Value.seq steps) →
          Value.map sm ∈ steps → lookupKey sm "model" = some r →
          (collectIds models).any (fun i => pyEq i r) = false →
          ("Task references unknown model: " ++ pyStr r) ∈ st'.errors)
      ∧ (∀ tm steps sm r, Value.map tm ∈ tasks →
          lookupKey tm "steps" = some (Value.seq steps) →
          Value.map sm ∈ steps → lookupKey sm "prompt" = some r →
          (collectIds prompts).any (fun i => pyEq i r) = false →
          ("Task references unknown prompt: " ++ pyStr r) ∈ st'.errors)
      ∧ (∀ tm steps sm r, Value.map tm ∈ tasks →
          lookupKey tm "steps" = some (Value.seq steps) →
          Value.map sm ∈ steps → lookupKey sm "mcp_server" = some r →
          (collectIds servers).any (fun i => pyEq i r) = false →
          ("Task references unknown MCP server: " ++ pyStr r) ∈ st'.errors) := by
  have hstepsFor : ∀ key ∈ (["model", "prompt", "mcp_server"] : List String),
      ∀ tm, Value.map tm ∈ tasks → ∀ sv, lookupKey tm "steps" = some sv →
      ∃ steps, sv = Value.seq steps ∧ (∀ s ∈ steps, ∃ sm, s = Value.map sm) ∧
        (∀ sm, Value.map sm ∈ steps → ∀ r, lookupKey sm key = some r → hashable r = true) := by
    intro key hkey tm htm sv hsv
    obtain ⟨steps, rfl, hm⟩ := hStepsShape tm htm sv hsv
    refine ⟨steps, rfl, hm, ?_⟩
    intro sm hsm r hr
    obtain ⟨sc, rfl⟩ := hRefsScalar tm htm steps hsv sm hsm key hkey r hr
    rfl
  obtain ⟨msgsM, hokM, hmemM⟩ := taskRefErrors_ok (collectIds models) "model"
    "Task references unknown model: " tasks hTasksShape (hstepsFor "model" (by simp))
  obtain ⟨msgsP, hokP, hmemP⟩ := taskRefErrors_ok (collectIds prompts) "prompt"
    "Task references unknown prompt: " tasks hTasksShape (hstepsFor "prompt" (by simp))
  obtain ⟨msgsS, hokS, hmemS⟩ := taskRefErrors_ok (collectIds servers) "mcp_server"
    "Task references unknown MCP server: " tasks hTasksShape (hstepsFor "mcp_server" (by simp))
  have hidsM : declaredIds models = Except.ok (collectIds models) :=
    declaredIds_ok models hModelsShape (by
      intro mm hmm i hi
      obtain ⟨sc, rfl⟩ := hModelsIds mm hmm i hi
      rfl)
  have hidsP : declaredIds prompts = Except.ok (collectIds prompts) :=
    declaredIds_ok prompts hPromptsShape (by
      intro mm hmm i hi
      obtain ⟨sc, rfl⟩ := hPromptsIds mm hmm i hi
      rfl)
  have hidsS : declaredIds servers = Except.ok (collectIds servers) :=
    declaredIds_ok servers hServersShape (by
      intro mm hmm i hi
      obtain ⟨sc, rfl⟩ := hServersIds mm hmm i hi
      rfl)
  have hM : modelRefErrors spec = Except.ok msgsM := by
    simp [modelRefErrors, htasks, hmodels, sectionIds, hidsM, taskIter, hokM]
  have hP : promptRefErrors spec = Except.ok msgsP := by
    simp [promptRefErrors, htasks, hprompts, sectionIds, hidsP, taskIter, hokP]
  have hS : mcpRefErrors spec = Except.ok msgsS := by
    simp [mcpRefErrors, htasks, hctx, hservers, sectionIds, hidsS, taskIter, hokS]
  refine ⟨{ st with errors := ((st.errors ++ msgsM) ++ msgsP) ++ msgsS }, ?_, ?_, ?_, ?_⟩
  · simp [cross_validate, hM, hP, hS]
  · intro tm steps sm r h1 h2 h3 h4 h5
    exact List.mem_append.mpr (Or.inl (List.mem_append.mpr (Or.inl
      (List.mem_append.mpr (Or.inr (hmemM tm steps sm r h1 h2 h3 h4 h5))))))
  · intro tm steps sm r h1 h2 h3 h4 h5
    exact List.mem_append.mpr (Or.inl (List.mem_append.mpr (Or.inr
      (hmemP tm steps sm r h1 h2 h3 h4 h5))))
  · intro tm steps sm r h1 h2 h3 h4 h5
    exact List.mem_append.mpr (Or.inr (hmemS tm steps sm r h1 h2 h3 h4 h5))

/-- Step of the C8 witness, referencing the undeclared model m2. -/
def c8step : Doc := [("model", Value.scalar (Scalar.str "m2"))]

/-- Task of the C8 witness, holding the single offending step. -/
def c8task : Doc :=
  [("id", Value.scalar (Scalar.str "t1")), ("steps", Value.seq [Value.map c8step])]

/-- Models of the C8 witness: the only declared model id is m1. -/
def c8models : List Value := [Value.map [("id", Value.scalar (Scalar.str "m1"))]]

/-- Composed document of the C8 witness. -/
def c8spec : Doc :=
  [("models", Value.seq c8models),
   ("prompts", Value.seq []),
   ("context", Value.map [("mcp_servers", Value.seq [])]),
   ("tasks", Value.seq [Value.map c8task])]

/-- Witness for C8: on the concrete document the run completes and the
unknown-model message for m2 is reported. -/
theorem cross_validate_reports_all_unknown_references_witness :
    ∃ st', cross_validate c8spec initState = Except.ok st'
      ∧ ("Task references unknown model: " ++ pyStr (Value.scalar (Scalar.str "m2"))) ∈
          st'.errors := by
  obtain ⟨st', hok, hmodel, _hprompt, _hmcp⟩ :=
    cross_validate_reports_all_unknown_references c8spec initState
      [Value.map c8task] c8models [] [("mcp_servers", Value.seq [])] []
      rfl rfl rfl rfl rfl
      (by
        intro t ht
        simp only [List.mem_singleton] at ht
        exact ⟨c8task, ht⟩)
      (by
        intro tm htm sv hsv
        simp only [List.mem_singleton, Value.map.injEq] at htm
        subst htm
        have hlk : lookupKey c8task "steps" = some (Value.seq [Value.map c8step]) := rfl
        rw [hlk] at hsv
        injection hsv with hsv2
        subst hsv2
        refine ⟨[Value.map c8step], rfl, ?_⟩
        intro s hs
        simp only [List.mem_singleton] at hs
        exact ⟨c8step, hs⟩)
      (by
        intro tm htm steps hsteps sm hsm key hkey r hr
        simp only [List.mem_singleton, Value.map.injEq] at htm
        subst htm
        have hlk : lookupKey c8task "steps" = some (Value.seq [Value.map c8step]) := rfl
        rw [hlk] at hsteps
        injection hsteps with hsteps2
        injection hsteps2 with hsteps3
        subst hsteps3
        simp only [List.mem_singleton, Value.map.injEq] at hsm
        subst hsm
        simp only [List.mem_cons, List.mem_singleton, List.not_mem_nil, or_false] at hkey
        rcases hkey with rfl | rfl | rfl
        · have hm : lookupKey c8step "model" = some (Value.scalar (Scalar.str "m2")) := rfl
          rw [hm] at hr
          injection hr with hr2
          exact ⟨Scalar.str "m2", hr2.symm⟩
        · have hm : lookupKey c8step "prompt" = none := rfl
          rw [hm] at hr
          exact Option.noConfusion hr
        · have hm : lookupKey c8step "mcp_server" = none := rfl
          rw [hm] at hr
          exact Option.noConfusion hr)
      (by
        intro m hm
        simp only [c8models, List.mem_singleton] at hm
        exact ⟨_, hm⟩)
      (by
        intro mm hmm i hi
        simp only [c8models, List.mem_singleton, Value.map.injEq] at hmm
        subst hmm
        have hm : lookupKey [("id", Value.scalar (Scalar.str "m1"))] "id" =
            some (Value.scalar (Scalar.str "m1")) := rfl
        rw [hm] at hi
        injection hi with hi2
        exact ⟨Scalar.str "m1", hi2.symm⟩)
      (by intro m hm; simp at hm)
      (by intro mm hmm i hi; simp at hmm)
      (by intro m hm; simp at hm)
      (by intro mm hmm i hi; simp at hmm)
  refine ⟨st', hok, ?_⟩
  exact hmodel c8task [Value.map c8step] c8step (Value.scalar (Scalar.str "m2"))
    (by simp) rfl (by simp) rfl
    (by simp [collectIds, c8models, lookupKey, pyEq, scalarPyEq])
